import Mathlib

/-!
Verification of the RTPS value-type core (`rtps` crate) against its
natural-language specification.

The development shallowly embeds the relevant Rust source files:
  * `src/core/sequence_number.rs` and `src/common/sequence_number.rs`
    (split 64-bit sequence counter, checked arithmetic, i64 conversions,
    and the sequence-number range-set constructor),
  * `src/core/fragment_number.rs` (fragment-number range-set constructor),
  * `src/core/time.rs` (fixed-point time with checked arithmetic and
    duration conversions),
  * `src/common/locator.rs` (network locator construction).

Machine integers are embedded as `Nat`/`Int` with explicit `% 2^32`
(resp. range checks) exactly where the source's u32/i32 semantics
demand it.  Rust `Option` maps to `Option`; a Rust panic/abort
(`unwrap`, `expect`, debug arithmetic overflow) maps to a distinguished
`panic` outcome of the embedded function's result type.
-/

/-- `2^32`, the modulus of an unsigned 32-bit word. -/
def U32 : Nat := 4294967296

/-- Smallest value of a signed 32-bit integer. -/
def I32_MIN : Int := -2147483648

/-- Largest value of a signed 32-bit integer. -/
def I32_MAX : Int := 2147483647

/-- An integer lies in signed 32-bit range. -/
def i32ok (x : Int) : Prop := I32_MIN ≤ x ∧ x ≤ I32_MAX

instance (x : Int) : Decidable (i32ok x) := by unfold i32ok; infer_instance

/-- Embedding of Rust `i32::checked_add`. -/
def i32CheckedAdd (a b : Int) : Option Int :=
  if i32ok (a + b) then some (a + b) else none

/-- Embedding of Rust `i32::checked_sub`. -/
def i32CheckedSub (a b : Int) : Option Int :=
  if i32ok (a - b) then some (a - b) else none

/-- Wrap an integer into signed 64-bit two's-complement range,
the value semantics of a Rust `i64` whose bits are given modulo `2^64`. -/
def wrapI64 (x : Int) : Int := (x + 2 ^ 63) % 2 ^ 64 - 2 ^ 63

/-- `SequenceNumber` from `sequence_number.rs`: a signed 32-bit high half
and an unsigned 32-bit low half.  Field ranges are tracked by
`SequenceNumber.wf` rather than baked into the type. -/
structure SequenceNumber where
  high : Int
  low : Nat
deriving DecidableEq, Repr

namespace SequenceNumber

/-- The fields are representable as `i32` / `u32`. -/
def wf (n : SequenceNumber) : Prop := i32ok n.high ∧ n.low < U32

instance (n : SequenceNumber) : Decidable n.wf := by unfold wf; infer_instance

/-- `SequenceNumber::unknown()` = `(high = -1, low = 0)`. -/
def unknown : SequenceNumber := ⟨-1, 0⟩

/-- `SequenceNumber::zero()` = `(0, 0)`. -/
def zero : SequenceNumber := ⟨0, 0⟩

/-- `SequenceNumber::checked_add`: refuse the `unknown` sentinel on either
side, add the low halves with 32-bit wraparound, feed the carry into the
checked high-half addition (`high.checked_add(rhs.high)` then
`.checked_add(carry)`). -/
def checked_add (a b : SequenceNumber) : Option SequenceNumber :=
  if a = unknown ∨ b = unknown then none
  else
    match i32CheckedAdd a.high b.high with
    | none => none
    | some h =>
      match i32CheckedAdd h (if U32 ≤ a.low + b.low then 1 else 0) with
      | none => none
      | some high => some ⟨high, (a.low + b.low) % U32⟩

/-- `SequenceNumber::checked_sub`: refuse the `unknown` sentinel on either
side, subtract the low halves with 32-bit wraparound producing a borrow,
feed the borrow into the checked high-half subtraction, and finally refuse
a negative high half. -/
def checked_sub (a b : SequenceNumber) : Option SequenceNumber :=
  if a = unknown ∨ b = unknown then none
  else
    match i32CheckedSub a.high b.high with
    | none => none
    | some h =>
      match i32CheckedSub h (if a.low < b.low then 1 else 0) with
      | none => none
      | some high =>
        if high < 0 then none else some ⟨high, (U32 + a.low - b.low) % U32⟩

/-- `Into<i64>` from `src/common/sequence_number.rs`:
`(high as i64) * 0x100000000 + low as i64`. -/
def into_inner (n : SequenceNumber) : Int := n.high * 4294967296 + n.low

/-- `Into<i64>` from `src/core/sequence_number.rs`:
the source text `(self.high as i64) << 32 + self.low as i64` parses, by
Rust operator precedence, as `high << (32 + low)`.  In a debug build the
shift aborts (arithmetic overflow) as soon as `32 + low ≥ 64`, embedded
here as `none`; otherwise the result is the shifted value wrapped to
two's-complement `i64` range. -/
def into_i64_core (n : SequenceNumber) : Option Int :=
  if 64 ≤ 32 + n.low then none
  else some (wrapI64 (n.high * 2 ^ (32 + n.low)))

/-- `From<i64>`: `high = (v >> 32) as i32` (arithmetic shift, i.e. floor
division by `2^32`), `low = (v & 0xffffffff) as u32` (the low 32 bits,
i.e. the value modulo `2^32`). -/
def from_i64 (v : Int) : SequenceNumber := ⟨Int.fdiv v 4294967296, (v % 4294967296).toNat⟩

end SequenceNumber

/-- C10: `checked_add` performs no negativity or sentinel check on its
result: `(-2, 0)` and `(1, 0)` are both different from `unknown`, yet
their checked sum is `Some((-1, 0))`, which is exactly the `unknown`
sentinel (a value with negative high half). -/
theorem seqnum_checked_add_makes_unknown :
    (⟨-2, 0⟩ : SequenceNumber) ≠ SequenceNumber.unknown ∧
    (⟨1, 0⟩ : SequenceNumber) ≠ SequenceNumber.unknown ∧
    SequenceNumber.checked_add ⟨-2, 0⟩ ⟨1, 0⟩ = some SequenceNumber.unknown ∧
    SequenceNumber.unknown.high < 0 := by
  refine ⟨by decide, by decide, ?_, by decide⟩
  decide

/-- C5 counterexample: `(-3, 0)` and `(1, 0)` are both different from the
`unknown` sentinel and their checked sum succeeds as `Some((-2, 0))`, but
subtracting `(1, 0)` back from `(-2, 0)` fails (negative high half), so
the round trip does not return `Some((-3, 0))`. -/
theorem seqnum_roundtrip_counterexample :
    (⟨-3, 0⟩ : SequenceNumber) ≠ SequenceNumber.unknown ∧
    (⟨1, 0⟩ : SequenceNumber) ≠ SequenceNumber.unknown ∧
    SequenceNumber.checked_add ⟨-3, 0⟩ ⟨1, 0⟩ = some ⟨-2, 0⟩ ∧
    SequenceNumber.checked_sub ⟨-2, 0⟩ ⟨1, 0⟩ = none := by
  refine ⟨by decide, by decide, ?_, ?_⟩ <;> decide

/-- C5 (amended): for well-formed sequence numbers whose high halves are
non-negative (the valid, non-sentinel range), a successful `checked_add`
is undone exactly by `checked_sub`. -/
theorem seqnum_add_sub_roundtrip (a b c : SequenceNumber)
    (ha : a.wf) (hb : b.wf) (ha0 : 0 ≤ a.high) (hb0 : 0 ≤ b.high)
    (h : a.checked_add b = some c) : c.checked_sub b = some a := by
  obtain ⟨ah, al⟩ := a
  obtain ⟨bh, bl⟩ := b
  obtain ⟨⟨hah0, hah⟩, hal⟩ := ha
  obtain ⟨⟨hbh0, hbh⟩, hbl⟩ := hb
  simp only [I32_MIN, I32_MAX, U32] at *
  have hne : ¬((⟨ah, al⟩ : SequenceNumber) = SequenceNumber.unknown ∨
      (⟨bh, bl⟩ : SequenceNumber) = SequenceNumber.unknown) := by
    simp only [SequenceNumber.unknown, SequenceNumber.mk.injEq, not_or]
    constructor <;> rintro ⟨h1, -⟩ <;> omega
  by_cases hc : (4294967296 : Nat) ≤ al + bl
  · by_cases hr1 : (-2147483648 : Int) ≤ ah + bh ∧ ah + bh ≤ 2147483647
    · by_cases hr2 : (-2147483648 : Int) ≤ ah + bh + 1 ∧ ah + bh + 1 ≤ 2147483647
      · simp only [SequenceNumber.checked_add, i32CheckedAdd, i32ok, I32_MIN, I32_MAX,
          U32, if_neg hne, if_pos hc, if_pos hr1, if_pos hr2] at h
        obtain rfl : (⟨ah + bh + 1, (al + bl) % 4294967296⟩ : SequenceNumber) = c :=
          Option.some.inj h
        have hne2 : ¬((⟨ah + bh + 1, (al + bl) % 4294967296⟩ : SequenceNumber)
            = SequenceNumber.unknown ∨
            (⟨bh, bl⟩ : SequenceNumber) = SequenceNumber.unknown) := by
          simp only [SequenceNumber.unknown, SequenceNumber.mk.injEq, not_or]
          constructor <;> rintro ⟨h1, -⟩ <;> omega
        have hlow : (al + bl) % 4294967296 < bl := by omega
        have hs1 : (-2147483648 : Int) ≤ ah + bh + 1 - bh ∧
            ah + bh + 1 - bh ≤ 2147483647 := by omega
        have hs2 : (-2147483648 : Int) ≤ ah + bh + 1 - bh - 1 ∧
            ah + bh + 1 - bh - 1 ≤ 2147483647 := by omega
        simp only [SequenceNumber.checked_sub, i32CheckedSub, i32ok, I32_MIN, I32_MAX,
          U32, if_neg hne2, if_pos hlow, if_pos hs1, if_pos hs2,
          if_neg (show ¬(ah + bh + 1 - bh - 1 < 0) by omega)]
        simp only [Option.some.injEq, SequenceNumber.mk.injEq]
        exact ⟨by omega, by omega⟩
      · simp only [SequenceNumber.checked_add, i32CheckedAdd, i32ok, I32_MIN, I32_MAX,
          U32, if_neg hne, if_pos hc, if_pos hr1, if_neg hr2] at h
        exact Option.noConfusion h
    · simp only [SequenceNumber.checked_add, i32CheckedAdd, i32ok, I32_MIN, I32_MAX,
        U32, if_neg hne, if_neg hr1] at h
      exact Option.noConfusion h
  · by_cases hr1 : (-2147483648 : Int) ≤ ah + bh ∧ ah + bh ≤ 2147483647
    · by_cases hr2 : (-2147483648 : Int) ≤ ah + bh + 0 ∧ ah + bh + 0 ≤ 2147483647
      · simp only [SequenceNumber.checked_add, i32CheckedAdd, i32ok, I32_MIN, I32_MAX,
          U32, if_neg hne, if_neg hc, if_pos hr1, if_pos hr2] at h
        obtain rfl : (⟨ah + bh + 0, (al + bl) % 4294967296⟩ : SequenceNumber) = c :=
          Option.some.inj h
        have hne2 : ¬((⟨ah + bh + 0, (al + bl) % 4294967296⟩ : SequenceNumber)
            = SequenceNumber.unknown ∨
            (⟨bh, bl⟩ : SequenceNumber) = SequenceNumber.unknown) := by
          simp only [SequenceNumber.unknown, SequenceNumber.mk.injEq, not_or]
          constructor <;> rintro ⟨h1, -⟩ <;> omega
        have hlow : ¬((al + bl) % 4294967296 < bl) := by omega
        have hs1 : (-2147483648 : Int) ≤ ah + bh + 0 - bh ∧
            ah + bh + 0 - bh ≤ 2147483647 := by omega
        have hs2 : (-2147483648 : Int) ≤ ah + bh + 0 - bh - 0 ∧
            ah + bh + 0 - bh - 0 ≤ 2147483647 := by omega
        simp only [SequenceNumber.checked_sub, i32CheckedSub, i32ok, I32_MIN, I32_MAX,
          U32, if_neg hne2, if_neg hlow, if_pos hs1, if_pos hs2,
          if_neg (show ¬(ah + bh + 0 - bh - 0 < 0) by omega)]
        simp only [Option.some.injEq, SequenceNumber.mk.injEq]
        exact ⟨by omega, by omega⟩
      · simp only [SequenceNumber.checked_add, i32CheckedAdd, i32ok, I32_MIN, I32_MAX,
          U32, if_neg hne, if_neg hc, if_pos hr1, if_neg hr2] at h
        exact Option.noConfusion h
    · simp only [SequenceNumber.checked_add, i32CheckedAdd, i32ok, I32_MIN, I32_MAX,
        U32, if_neg hne, if_neg hr1] at h
      exact Option.noConfusion h

/-- C5 witness: a concrete successful addition with a low-half carry,
undone exactly by subtraction. -/
theorem seqnum_add_sub_roundtrip_witness :
    SequenceNumber.checked_sub ⟨1, 1⟩ ⟨0, 2⟩ = some ⟨0, 4294967295⟩ :=
  seqnum_add_sub_roundtrip ⟨0, 4294967295⟩ ⟨0, 2⟩ ⟨1, 1⟩
    (by decide) (by decide) (by decide) (by decide) (by decide)

/-- C6 (code bug): the `Into<i64>` in `src/core/sequence_number.rs` reads
`(high as i64) << 32 + low as i64`, which Rust parses as
`high << (32 + low)`: for the sequence number `(0, 1)` it yields `0`,
while the claimed value `high·2^32 + low` (computed by the sibling
implementation in `src/common/sequence_number.rs`) is `1`; moreover for
any `low ≥ 32` the shift amount reaches 64 and the conversion aborts in
a debug build.  `From<i64>` maps `1` to `(0, 1)`, so the round trip
`i64 → SequenceNumber → i64` is not the identity under the core
implementation. -/
theorem seqnum_into_i64_core_precedence_bug :
    SequenceNumber.into_i64_core ⟨0, 1⟩ = some 0 ∧
    SequenceNumber.into_inner ⟨0, 1⟩ = 1 ∧
    SequenceNumber.into_i64_core ⟨0, 32⟩ = none ∧
    SequenceNumber.from_i64 1 = ⟨0, 1⟩ := by
  refine ⟨?_, by decide, by decide, ?_⟩ <;> decide

/-- `Time` from `src/core/time.rs`: a signed 32-bit whole-unit count and
an unsigned 32-bit fractional-unit count.  Field ranges are tracked by
`Time.wf`. -/
structure Time where
  seconds : Int
  fraction : Nat
deriving DecidableEq, Repr

namespace Time

/-- The fields are representable as `i32` / `u32`. -/
def wf (t : Time) : Prop := i32ok t.seconds ∧ t.fraction < U32

instance (t : Time) : Decidable t.wf := by unfold wf; infer_instance

/-- `Time::is_valid`: `if seconds < 0 { false } else { true }`. -/
def is_valid (t : Time) : Bool := if t.seconds < 0 then false else true

/-- `Time::infinite()` = `(0x7fffffff, 0xffffffff)`. -/
def infinite : Time := ⟨2147483647, 4294967295⟩

/-- `Time::invalid()` = `(-1, 0xffffffff)`. -/
def invalid : Time := ⟨-1, 4294967295⟩

/-- `Time::zero()` = `(0, 0)`. -/
def zero : Time := ⟨0, 0⟩

/-- The exact fixed-point value `seconds · 2^32 + fraction` denoted by a
`Time`. -/
def timeVal (t : Time) : Int := t.seconds * 4294967296 + t.fraction

/-- The carry out of the wrapping 32-bit fraction addition
(`overflowing_add` overflowed). -/
def addCarry (a b : Time) : Int := if U32 ≤ a.fraction + b.fraction then 1 else 0

/-- The borrow out of the wrapping 32-bit fraction subtraction
(`overflowing_sub` overflowed). -/
def subBorrow (a b : Time) : Int := if a.fraction < b.fraction then 1 else 0

/-- `Time::checked_add`: guard `!self.is_valid() || !rhs.is_valid()`
(i.e. a negative seconds field on either side), wrapping fraction
addition, carry fed into the checked seconds addition. -/
def checked_add (a b : Time) : Option Time :=
  if a.seconds < 0 ∨ b.seconds < 0 then none
  else
    match i32CheckedAdd a.seconds b.seconds with
    | none => none
    | some s =>
      match i32CheckedAdd s (if U32 ≤ a.fraction + b.fraction then 1 else 0) with
      | none => none
      | some seconds => some ⟨seconds, (a.fraction + b.fraction) % U32⟩

/-- `Time::checked_sub`: guard as for addition, wrapping fraction
subtraction with borrow fed into the checked seconds subtraction, and a
final rejection of a negative seconds result. -/
def checked_sub (a b : Time) : Option Time :=
  if a.seconds < 0 ∨ b.seconds < 0 then none
  else
    match i32CheckedSub a.seconds b.seconds with
    | none => none
    | some s =>
      match i32CheckedSub s (if a.fraction < b.fraction then 1 else 0) with
      | none => none
      | some seconds =>
        if seconds < 0 then none
        else some ⟨seconds, (U32 + a.fraction - b.fraction) % U32⟩

end Time

/-- Closed form of `Time.checked_add` for operands with non-negative,
in-range seconds: the two chained `i32::checked_add`s fail exactly when
the carried sum exceeds `I32_MAX`. -/
theorem time_checked_add_closed (a b : Time)
    (ha : 0 ≤ a.seconds) (hb : 0 ≤ b.seconds)
    (ha2 : a.seconds ≤ I32_MAX) (hb2 : b.seconds ≤ I32_MAX) :
    Time.checked_add a b =
      if a.seconds + b.seconds + Time.addCarry a b ≤ I32_MAX then
        some ⟨a.seconds + b.seconds + Time.addCarry a b,
              (a.fraction + b.fraction) % U32⟩
      else none := by
  obtain ⟨as_, af⟩ := a
  obtain ⟨bs, bf⟩ := b
  simp only [Time.checked_add, Time.addCarry, i32CheckedAdd, i32ok,
    I32_MIN, I32_MAX, U32] at *
  rw [if_neg (by omega)]
  by_cases hc : (4294967296 : Nat) ≤ af + bf
  · simp only [if_pos hc]
    by_cases hr1 : (-2147483648 : Int) ≤ as_ + bs ∧ as_ + bs ≤ 2147483647
    · simp only [if_pos hr1]
      by_cases hr2 : (-2147483648 : Int) ≤ as_ + bs + 1 ∧ as_ + bs + 1 ≤ 2147483647
      · simp only [if_pos hr2]
        rw [if_pos (by omega)]
      · simp only [if_neg hr2]
        rw [if_neg (by omega)]
    · simp only [if_neg hr1]
      rw [if_neg (by omega)]
  · simp only [if_neg hc]
    by_cases hr1 : (-2147483648 : Int) ≤ as_ + bs ∧ as_ + bs ≤ 2147483647
    · simp only [if_pos hr1]
      by_cases hr2 : (-2147483648 : Int) ≤ as_ + bs + 0 ∧ as_ + bs + 0 ≤ 2147483647
      · simp only [if_pos hr2]
        rw [if_pos (by omega)]
      · simp only [if_neg hr2]
        rw [if_neg (by omega)]
    · simp only [if_neg hr1]
      rw [if_neg (by omega)]

/-- Closed form of `Time.checked_sub` for operands with non-negative,
in-range seconds: the chained `i32::checked_sub`s never leave signed
32-bit range, so the subtraction fails exactly when the borrowed
difference of the seconds would be negative. -/
theorem time_checked_sub_closed (a b : Time)
    (ha : 0 ≤ a.seconds) (hb : 0 ≤ b.seconds)
    (ha2 : a.seconds ≤ I32_MAX) (hb2 : b.seconds ≤ I32_MAX) :
    Time.checked_sub a b =
      if 0 ≤ a.seconds - b.seconds - Time.subBorrow a b then
        some ⟨a.seconds - b.seconds - Time.subBorrow a b,
              (U32 + a.fraction - b.fraction) % U32⟩
      else none := by
  obtain ⟨as_, af⟩ := a
  obtain ⟨bs, bf⟩ := b
  simp only [Time.checked_sub, Time.subBorrow, i32CheckedSub, i32ok,
    I32_MIN, I32_MAX, U32] at *
  rw [if_neg (by omega)]
  by_cases hc : af < bf
  · simp only [if_pos hc]
    simp only [if_pos (show (-2147483648 : Int) ≤ as_ - bs ∧ as_ - bs ≤ 2147483647
      by omega)]
    simp only [if_pos (show (-2147483648 : Int) ≤ as_ - bs - 1 ∧
      as_ - bs - 1 ≤ 2147483647 by omega)]
    by_cases h0 : as_ - bs - 1 < 0
    · rw [if_pos h0, if_neg (by omega)]
    · rw [if_neg h0, if_pos (by omega)]
  · simp only [if_neg hc]
    simp only [if_pos (show (-2147483648 : Int) ≤ as_ - bs ∧ as_ - bs ≤ 2147483647
      by omega)]
    simp only [if_pos (show (-2147483648 : Int) ≤ as_ - bs - 0 ∧
      as_ - bs - 0 ≤ 2147483647 by omega)]
    by_cases h0 : as_ - bs - 0 < 0
    · rw [if_pos h0, if_neg (by omega)]
    · rw [if_neg h0, if_pos (by omega)]

/-- C4: for all representable `Time` values, `checked_add` (resp.
`checked_sub`) returns `none` exactly when an operand has a negative
seconds field, or the seconds result after adding the carry (resp.
subtracting the borrow) from the wrapping 32-bit fraction arithmetic
leaves signed 32-bit range, or (for subtraction only) the seconds result
would be negative; otherwise the result denotes the exact fixed-point
sum (resp. difference).  In particular `infinite + t` and `zero - t`
fail for every valid `t` other than `zero`. -/
theorem time_checked_add_sub_spec :
    (∀ a b : Time, a.wf → b.wf →
      ((Time.checked_add a b = none ↔
          a.seconds < 0 ∨ b.seconds < 0 ∨
          ¬ i32ok (a.seconds + b.seconds + Time.addCarry a b)) ∧
       (∀ c, Time.checked_add a b = some c →
          Time.timeVal c = Time.timeVal a + Time.timeVal b) ∧
       (Time.checked_sub a b = none ↔
          a.seconds < 0 ∨ b.seconds < 0 ∨
          ¬ i32ok (a.seconds - b.seconds - Time.subBorrow a b) ∨
          a.seconds - b.seconds - Time.subBorrow a b < 0) ∧
       (∀ c, Time.checked_sub a b = some c →
          Time.timeVal c = Time.timeVal a - Time.timeVal b))) ∧
    (∀ t : Time, t.wf → t.is_valid = true → t ≠ Time.zero →
      Time.checked_add Time.infinite t = none ∧
      Time.checked_sub Time.zero t = none) := by
  have carry_bound : ∀ a b : Time, Time.addCarry a b = 0 ∨ Time.addCarry a b = 1 := by
    intro a b
    unfold Time.addCarry
    split <;> simp
  have carry_pos : ∀ a b : Time, U32 ≤ a.fraction + b.fraction → Time.addCarry a b = 1 := by
    intro a b h
    unfold Time.addCarry
    rw [if_pos h]
  have carry_zero : ∀ a b : Time, ¬ (U32 ≤ a.fraction + b.fraction) →
      Time.addCarry a b = 0 := by
    intro a b h
    unfold Time.addCarry
    rw [if_neg h]
  have borrow_pos : ∀ a b : Time, a.fraction < b.fraction → Time.subBorrow a b = 1 := by
    intro a b h
    unfold Time.subBorrow
    rw [if_pos h]
  have borrow_zero : ∀ a b : Time, ¬ (a.fraction < b.fraction) →
      Time.subBorrow a b = 0 := by
    intro a b h
    unfold Time.subBorrow
    rw [if_neg h]
  constructor
  · intro a b ha hb
    obtain ⟨⟨ha1, ha2⟩, ha3⟩ := ha
    obtain ⟨⟨hb1, hb2⟩, hb3⟩ := hb
    by_cases hv : a.seconds < 0 ∨ b.seconds < 0
    · have hadd : Time.checked_add a b = none := by
        simp only [Time.checked_add, if_pos hv]
      have hsub : Time.checked_sub a b = none := by
        simp only [Time.checked_sub, if_pos hv]
      refine ⟨?_, ?_, ?_, ?_⟩
      · rw [hadd]
        exact iff_of_true rfl (by tauto)
      · intro c hc
        rw [hadd] at hc
        exact Option.noConfusion hc
      · rw [hsub]
        exact iff_of_true rfl (by tauto)
      · intro c hc
        rw [hsub] at hc
        exact Option.noConfusion hc
    · rw [not_or, not_lt, not_lt] at hv
      obtain ⟨hva, hvb⟩ := hv
      rw [time_checked_add_closed a b hva hvb ha2 hb2,
        time_checked_sub_closed a b hva hvb ha2 hb2]
      refine ⟨?_, ?_, ?_, ?_⟩
      · by_cases hr : a.seconds + b.seconds + Time.addCarry a b ≤ I32_MAX
        · rw [if_pos hr]
          refine iff_of_false (by simp) ?_
          rcases carry_bound a b with h0 | h0 <;>
            simp only [i32ok, I32_MIN, I32_MAX, h0] at * <;> omega
        · rw [if_neg hr]
          refine iff_of_true rfl ?_
          refine Or.inr (Or.inr ?_)
          simp only [i32ok, I32_MIN, I32_MAX] at *
          omega
      · intro c hc
        by_cases hr : a.seconds + b.seconds + Time.addCarry a b ≤ I32_MAX
        · rw [if_pos hr] at hc
          obtain rfl := (Option.some.inj hc).symm
          by_cases hcc : U32 ≤ a.fraction + b.fraction
          · have h1 := carry_pos a b hcc
            simp only [Time.timeVal, h1, U32] at *
            omega
          · have h1 := carry_zero a b hcc
            simp only [Time.timeVal, h1, U32] at *
            omega
        · rw [if_neg hr] at hc
          exact Option.noConfusion hc
      · by_cases hr : 0 ≤ a.seconds - b.seconds - Time.subBorrow a b
        · rw [if_pos hr]
          refine iff_of_false (by simp) ?_
          rcases (by unfold Time.subBorrow; split <;> simp :
              Time.subBorrow a b = 0 ∨ Time.subBorrow a b = 1) with h0 | h0 <;>
            simp only [i32ok, I32_MIN, I32_MAX, h0] at * <;> omega
        · rw [if_neg hr]
          exact iff_of_true rfl (Or.inr (Or.inr (Or.inr (by omega))))
      · intro c hc
        by_cases hr : 0 ≤ a.seconds - b.seconds - Time.subBorrow a b
        · rw [if_pos hr] at hc
          obtain rfl := (Option.some.inj hc).symm
          by_cases hcc : a.fraction < b.fraction
          · have h1 := borrow_pos a b hcc
            simp only [Time.timeVal, h1, U32] at *
            omega
          · have h1 := borrow_zero a b hcc
            simp only [Time.timeVal, h1, U32] at *
            omega
        · rw [if_neg hr] at hc
          exact Option.noConfusion hc
  · intro t ht htv htz
    obtain ⟨⟨ht1, ht2⟩, ht3⟩ := ht
    have hts : ¬ (t.seconds < 0) := by
      simp only [Time.is_valid] at htv
      by_contra hlt
      rw [if_pos hlt] at htv
      exact Bool.noConfusion htv
    have htz' : ¬ (t.seconds = 0 ∧ t.fraction = 0) := by
      rintro ⟨h1, h2⟩
      apply htz
      obtain ⟨ts, tf⟩ := t
      simp only at h1 h2
      simp [Time.zero, h1, h2]
    constructor
    · rw [time_checked_add_closed Time.infinite t (by decide) (by omega)
        (by decide) ht2]
      rw [if_neg ?_]
      have h8 : Time.infinite.seconds = 2147483647 := rfl
      have h9 : Time.infinite.fraction = 4294967295 := rfl
      unfold Time.addCarry
      rw [h8, h9]
      simp only [I32_MAX, U32]
      split <;> omega
    · rw [time_checked_sub_closed Time.zero t (by decide) (by omega)
        (by decide) ht2]
      rw [if_neg ?_]
      have h8 : Time.zero.seconds = 0 := rfl
      have h9 : Time.zero.fraction = 0 := rfl
      unfold Time.subBorrow
      rw [h8, h9]
      split <;> omega

/-- C4 witness: a concrete addition with fraction carry matching the
spec's example, an infinite-plus-epsilon failure, and a
zero-minus-epsilon failure, all obtained from the theorem. -/
theorem time_checked_add_sub_spec_witness :
    Time.timeVal ⟨6, 10⟩ = Time.timeVal ⟨1, 4294967280⟩ + Time.timeVal ⟨4, 26⟩ ∧
    Time.checked_add Time.infinite ⟨0, 1⟩ = none ∧
    Time.checked_sub Time.zero ⟨0, 1⟩ = none := by
  refine ⟨?_, ?_, ?_⟩
  · exact (time_checked_add_sub_spec.1 ⟨1, 4294967280⟩ ⟨4, 26⟩ (by decide)
      (by decide)).2.1 ⟨6, 10⟩ (by decide)
  · exact (time_checked_add_sub_spec.2 ⟨0, 1⟩ (by decide) (by decide) (by decide)).1
  · exact (time_checked_add_sub_spec.2 ⟨0, 1⟩ (by decide) (by decide) (by decide)).2

namespace Time

/-- `Time::checked_div`: guard `!self.is_valid() || rhs <= 0`; then
`seconds = self.seconds / rhs` (truncating `i32` division, which on the
non-negative operands guaranteed by the guard is `Nat` division),
`carry = seconds_in - seconds * rhs` (`u64` arithmetic),
`extra_fraction = carry * (u32::MAX + 1) / rhs`, and
`fraction = self.fraction / rhs + extra_fraction as u32` (the `as u32`
cast and the wrapping `u32` addition are the `% U32`s). -/
def checked_div (t : Time) (rhs : Int) : Option Time :=
  if t.seconds < 0 ∨ rhs ≤ 0 then none
  else
    let seconds := t.seconds.toNat / rhs.toNat
    let carry := t.seconds.toNat - seconds * rhs.toNat
    let extra_fraction := carry * U32 / rhs.toNat
    some ⟨(seconds : Int), (t.fraction / rhs.toNat + extra_fraction % U32) % U32⟩

/-- `TryFrom<Duration> for Time`: `as_secs()` (a `u64`) must fit in
`i32`; the fraction is `nanos · 2^32 / 10^9` truncating, cast `as u32`.
`nanos` stands for `subsec_nanos()`, which a `Duration` keeps below
`10^9`. -/
def fromDuration (secs nanos : Nat) : Option Time :=
  if (secs : Int) ≤ I32_MAX then
    some ⟨(secs : Int), nanos * U32 / 1000000000 % U32⟩
  else none

/-- `TryInto<Duration> for Time`: the seconds (an `i32`) must be
non-negative to fit in `u64`; the nanoseconds are
`fraction · 10^9 / 2^32` truncating, cast `as u32`; `Duration::new` then
normalises any whole second hiding in the nanoseconds field. -/
def toDuration (t : Time) : Option (Nat × Nat) :=
  if t.seconds < 0 then none
  else
    let nanos := t.fraction * 1000000000 / U32 % U32
    some (t.seconds.toNat + nanos / 1000000000, nanos % 1000000000)

end Time

/-- Subtracting the truncated quotient times the divisor from the
dividend gives the remainder (shape of the `carry` computation in
`Time::checked_div`). -/
theorem nat_sub_div_mul_eq_mod (n S : Nat) : n - n / S * S = n % S := by
  have h := Nat.div_add_mod n S
  generalize hq : n / S = q at *
  generalize hr : n % S = r at *
  rw [← h, Nat.mul_comm S q, Nat.add_sub_cancel_left]

/-- C7: `checked_div` fails exactly on an invalid dividend or a
non-positive divisor; otherwise it returns whole units
`⌊seconds / s⌋` and fraction `⌊fraction / s⌋ + ⌊(seconds mod s)·2^32 / s⌋`,
and that unsigned 32-bit fraction addition never wraps. -/
theorem time_checked_div_spec : ∀ (t : Time) (s : Int), t.wf → i32ok s →
    ((Time.checked_div t s = none ↔ t.seconds < 0 ∨ s ≤ 0) ∧
     (0 ≤ t.seconds → 0 < s →
        Time.checked_div t s =
          some ⟨(t.seconds.toNat / s.toNat : Nat),
                t.fraction / s.toNat + t.seconds.toNat % s.toNat * U32 / s.toNat⟩ ∧
        t.fraction / s.toNat + t.seconds.toNat % s.toNat * U32 / s.toNat < U32)) := by
  intro t s ht hs
  obtain ⟨⟨ht1, ht2⟩, ht3⟩ := ht
  constructor
  · by_cases hg : t.seconds < 0 ∨ s ≤ 0
    · exact iff_of_true (by simp only [Time.checked_div, if_pos hg]) hg
    · refine iff_of_false ?_ hg
      intro h
      simp only [Time.checked_div, if_neg hg] at h
      exact Option.noConfusion h
  · intro hts hs0
    have hg : ¬ (t.seconds < 0 ∨ s ≤ 0) := by omega
    have hS : 0 < s.toNat := by omega
    have hcarry := nat_sub_div_mul_eq_mod t.seconds.toNat s.toNat
    have hcS : t.seconds.toNat % s.toNat < s.toNat := Nat.mod_lt _ hS
    have hextra : t.seconds.toNat % s.toNat * U32 / s.toNat < U32 := by
      rw [Nat.div_lt_iff_lt_mul hS]
      simp only [U32]
      omega
    have hb1 : t.fraction / s.toNat + t.seconds.toNat % s.toNat * U32 / s.toNat ≤
        (t.fraction + t.seconds.toNat % s.toNat * U32) / s.toNat := by
      rw [Nat.le_div_iff_mul_le hS, Nat.add_mul]
      exact Nat.add_le_add (Nat.div_mul_le_self _ _) (Nat.div_mul_le_self _ _)
    have hb2 : (t.fraction + t.seconds.toNat % s.toNat * U32) / s.toNat < U32 := by
      rw [Nat.div_lt_iff_lt_mul hS]
      simp only [U32] at *
      omega
    have hbound := lt_of_le_of_lt hb1 hb2
    refine ⟨?_, hbound⟩
    simp only [Time.checked_div, if_neg hg, hcarry]
    rw [Nat.mod_eq_of_lt hextra, Nat.mod_eq_of_lt hbound]

/-- C7 witness: the spec's worked example,
`(0x10, 0xFFFF0000) / 0x10 = (1, 0x0FFFF000)`, with the fraction sum in
32-bit range. -/
theorem time_checked_div_spec_witness :
    Time.checked_div ⟨16, 4294901760⟩ 16 = some ⟨1, 268431360⟩ ∧
    (268431360 : Nat) < U32 := by
  have h := (time_checked_div_spec ⟨16, 4294901760⟩ 16 (by decide) (by decide)).2
    (by decide) (by decide)
  exact ⟨h.1, by decide⟩

/-- C8: converting a `(seconds, nanoseconds)` duration (seconds in
non-negative `i32` range, nanoseconds below `10^9`) to `Time` and back
reproduces the seconds exactly, and the nanoseconds up to a truncation
loss of at most one unit, never an overshoot. -/
theorem time_duration_roundtrip : ∀ secs nanos : Nat,
    (secs : Int) ≤ I32_MAX → nanos < 1000000000 →
    ∃ t nanos2, Time.fromDuration secs nanos = some t ∧
      Time.toDuration t = some (secs, nanos2) ∧
      nanos - 1 ≤ nanos2 ∧ nanos2 ≤ nanos := by
  intro secs nanos hsec hn
  have hf : nanos * 4294967296 / 1000000000 < 4294967296 := by omega
  have hfm : nanos * 4294967296 / 1000000000 % 4294967296
      = nanos * 4294967296 / 1000000000 := Nat.mod_eq_of_lt hf
  have hn2 : nanos * 4294967296 / 1000000000 * 1000000000 / 4294967296
      < 1000000000 := by omega
  have hn2m : nanos * 4294967296 / 1000000000 * 1000000000 / 4294967296 % 4294967296
      = nanos * 4294967296 / 1000000000 * 1000000000 / 4294967296 :=
    Nat.mod_eq_of_lt (by omega)
  refine ⟨⟨(secs : Int), nanos * U32 / 1000000000 % U32⟩,
    nanos * 4294967296 / 1000000000 * 1000000000 / 4294967296, ?_, ?_, ?_, ?_⟩
  · simp only [Time.fromDuration, if_pos hsec]
  · simp only [Time.toDuration, U32,
      if_neg (show ¬ ((secs : Int) < 0) by omega), hfm, hn2m]
    simp only [Prod.mk.injEq, Option.some.injEq, Int.toNat_natCast]
    exact ⟨by omega, by omega⟩
  · omega
  · omega

/-- C8 witness: the round trip at one second and the largest legal
nanosecond count. -/
theorem time_duration_roundtrip_witness :
    ∃ t nanos2, Time.fromDuration 1 999999999 = some t ∧
      Time.toDuration t = some (1, nanos2) ∧
      999999999 - 1 ≤ nanos2 ∧ nanos2 ≤ 999999999 :=
  time_duration_roundtrip 1 999999999 (by decide) (by decide)

/-- `LocatorKind` from `src/common/locator.rs`. -/
inductive LocatorKind
  | invalid
  | reserved
  | udp
deriving DecidableEq, Repr

/-- An address-family-tagged IP address (`std::net::IpAddr`): four `u8`
octets for V4, sixteen octets for V6. -/
inductive IpAddr
  | v4 (a b c d : Nat)
  | v6 (octets : List Nat)
deriving DecidableEq, Repr

/-- `std::net::SocketAddr`: an IP address plus a `u16` port. -/
structure SocketAddr where
  ip : IpAddr
  port : Nat
deriving DecidableEq, Repr

/-- `Ipv4Addr::to_ipv6_compatible().octets()` (Rust std, the call made
by `Locator::new`): the IPv4-compatible IPv6 address `::a.b.c.d`,
i.e. twelve zero bytes followed by the four IPv4 octets. -/
def toIpv6Compatible (a b c d : Nat) : List Nat :=
  [0, 0, 0, 0, 0, 0, 0, 0, 0, 0, 0, 0, a, b, c, d]

/-- `Locator` from `src/common/locator.rs`: `i32` kind discriminant,
`u32` port, 16-byte address. -/
structure Locator where
  kind : Int
  port : Nat
  address : List Nat
deriving DecidableEq, Repr

/-- `Locator::new`: discriminant `-1`/`0`/`1`/`2` from the kind and the
address family, port copied, an IPv4 address stored via
`to_ipv6_compatible`, an IPv6 address stored as its 16 octets. -/
def Locator.new (kind : LocatorKind) (sa : SocketAddr) : Locator :=
  { kind :=
      match kind with
      | .invalid => -1
      | .reserved => 0
      | .udp =>
        match sa.ip with
        | .v4 _ _ _ _ => 1
        | .v6 _ => 2
    port := sa.port
    address :=
      match sa.ip with
      | .v4 a b c d => toIpv6Compatible a b c d
      | .v6 o => o }

/-- C9 counterexample: for the IPv4 socket address `127.0.0.1:7400` the
stored 16-byte address is not the IPv6-mapped form
`[0,…,0,0xff,0xff,127,0,0,1]` the claim requires — the code calls
`to_ipv6_compatible`, not `to_ipv6_mapped`, so bytes 10 and 11 are `0`
rather than `0xff`. -/
theorem locator_ipv4_not_v6mapped :
    (Locator.new .udp ⟨.v4 127 0 0 1, 7400⟩).address ≠
      [0, 0, 0, 0, 0, 0, 0, 0, 0, 0, 255, 255, 127, 0, 0, 1] := by
  decide

/-- C9 (amended): for every IPv4 socket address `a.b.c.d:p`,
`Locator::new(Udp, ..)` stores kind `1`, port `p`, and the 16-byte
IPv4-compatible (not IPv6-mapped) form `[0×12, a, b, c, d]`. -/
theorem locator_new_udp_v4 (a b c d p : Nat)
    (ha : a < 256) (hb : b < 256) (hc : c < 256) (hd : d < 256)
    (hp : p < 65536) :
    Locator.new .udp ⟨.v4 a b c d, p⟩ =
      ⟨1, p, [0, 0, 0, 0, 0, 0, 0, 0, 0, 0, 0, 0, a, b, c, d]⟩ := rfl

/-- C9 witness: the amended statement at `127.0.0.1:7400`. -/
theorem locator_new_udp_v4_witness :
    Locator.new .udp ⟨.v4 127 0 0 1, 7400⟩ =
      ⟨1, 7400, [0, 0, 0, 0, 0, 0, 0, 0, 0, 0, 0, 0, 127, 0, 0, 1]⟩ :=
  locator_new_udp_v4 127 0 0 1 7400 (by decide) (by decide) (by decide)
    (by decide) (by decide)

/-- The error kinds of `src/core/error.rs` produced by the range-set
constructors. -/
inductive ErrorKind
  | invalidLength (n : Nat)
  | invalidRange
  | invalidValue
deriving DecidableEq, Repr

/-- Result of an embedded fallible Rust constructor: success, a typed
error, or an aborted execution (an `unwrap`/`expect` failure). -/
inductive TFOut (α : Type)
  | ok (s : α)
  | err (e : ErrorKind)
  | panic
deriving DecidableEq, Repr

/-- The observable content common to the eight fixed-capacity
`FragmentNumberSet*`/`SequenceNumberSet*` shapes: `base()`,
`num_bits()` and `bitmaps()` — the shapes differ only in the static
length of the word array, which equals `bitmaps.length` here. -/
structure RangeSet (α : Type) where
  base : α
  num_bits : Nat
  bitmaps : List Nat
deriving DecidableEq, Repr

/-- Insertion into a `≤`-sorted list of counters.  Realizes
`sort_unstable`: on a totally ordered value type every sorting
algorithm produces this same sorted arrangement. -/
def insertSortedNat (n : Nat) : List Nat → List Nat
  | [] => [n]
  | m :: ms => if n ≤ m then n :: m :: ms else m :: insertSortedNat n ms

/-- `v.sort_unstable()` for `Vec<u32>`. -/
def sortNat (v : List Nat) : List Nat := v.foldr insertSortedNat []

/-- One step of the bitmap fold of
`TryFrom<Vec<FragmentNumber>>` (`src/core/fragment_number.rs`): when the
member's offset from the current word base exceeds 31, push the word and
advance the base by 32 (once); then or-in the bit for the offset within
the current word.  Release semantics of `1u32 << shift`: the shift
amount is masked modulo 32.  State: (completed words, word base,
in-progress word). -/
def fragFoldStep (acc : List Nat × Nat × Nat) (n : Nat) : List Nat × Nat × Nat :=
  let (maps, wbase, bitmap) := acc
  let (maps, wbase, bitmap) :=
    if n - wbase > 31 then (maps ++ [bitmap], wbase + 32, 0)
    else (maps, wbase, bitmap)
  let shift := n - wbase
  (maps, wbase, bitmap ||| (1 <<< (shift % 32)))

/-- `TryFrom<Vec<FragmentNumber>> for Box<FragmentNumberSet>`
(`src/core/fragment_number.rs`): length check, unstable sort,
`range = last - first`, range and base checks, the bitmap fold seeded
with word `1` (bit 0 for the base), and the shape-selection
`match range / 32 + 1` whose arm converts the word vector into a fixed
`[u32; k]` array — that `try_into().unwrap()` aborts (`TFOut.panic`)
whenever the fold produced a different number of words. -/
def fragTryFrom (v : List Nat) : TFOut (RangeSet Nat) :=
  if v.length < 1 ∨ v.length > 256 then .err (.invalidLength v.length)
  else
    match sortNat v with
    | [] => .panic
    | first :: rest =>
      let last := rest.getLastD first
      let range := last - first
      if range > 255 then .err .invalidRange
      else if first < 1 then .err .invalidValue
      else
        let folded := rest.foldl fragFoldStep ([], first, 1)
        let bitmaps := folded.1 ++ [folded.2.2]
        if bitmaps.length = range / 32 + 1 then
          .ok ⟨first, range + 1, bitmaps⟩
        else .panic

/-- The derived lexicographic order of `SequenceNumber` (compare `high`,
then `low`) as a Boolean `≤` test. -/
def seqLe (a b : SequenceNumber) : Bool :=
  decide (a.high < b.high ∨ (a.high = b.high ∧ a.low ≤ b.low))

/-- Insertion into a `seqLe`-sorted list. -/
def insertSortedSeq (n : SequenceNumber) :
    List SequenceNumber → List SequenceNumber
  | [] => [n]
  | m :: ms => if seqLe n m then n :: m :: ms else m :: insertSortedSeq n ms

/-- `v.sort_unstable()` for `Vec<SequenceNumber>`. -/
def sortSeq (v : List SequenceNumber) : List SequenceNumber :=
  v.foldr insertSortedSeq []

/-- One step of the bitmap fold of `TryFrom<Vec<SequenceNumber>>`
(`src/common/sequence_number.rs`): as the fragment fold, but offsets are
computed in `i64` via `into_inner`; `(shift % 32).toNat` is the release
masking of the shift amount (the low five bits of the two's-complement
shift). -/
def seqFoldStep (acc : List Nat × Int × Nat) (n : SequenceNumber) :
    List Nat × Int × Nat :=
  let (maps, wbase, bitmap) := acc
  let (maps, wbase, bitmap) :=
    if n.into_inner - wbase > 31 then (maps ++ [bitmap], wbase + 32, 0)
    else (maps, wbase, bitmap)
  let shift := n.into_inner - wbase
  (maps, wbase, bitmap ||| (1 <<< (shift % 32).toNat))

/-- `TryFrom<Vec<SequenceNumber>> for Box<SequenceNumberSet>`
(`src/common/sequence_number.rs`): as `fragTryFrom`, except the span is
computed by the unchecked `Sub` operator —
`(v.last() - v.first()).into_inner()`, i.e.
`checked_sub(..).expect(..)`, an abort (`TFOut.panic`) whenever
`checked_sub` returns `None`, e.g. when an operand is the `unknown`
sentinel — and offsets use `into_inner` i64 arithmetic. -/
def seqTryFrom (v : List SequenceNumber) : TFOut (RangeSet SequenceNumber) :=
  if v.length < 1 ∨ v.length > 256 then .err (.invalidLength v.length)
  else
    match sortSeq v with
    | [] => .panic
    | first :: rest =>
      let last := rest.getLastD first
      match last.checked_sub first with
      | none => .panic
      | some diff =>
        let range := diff.into_inner
        if range > 255 then .err .invalidRange
        else if first.into_inner < 1 then .err .invalidValue
        else
          let folded := rest.foldl seqFoldStep ([], first.into_inner, 1)
          let bitmaps := folded.1 ++ [folded.2.2]
          if bitmaps.length = range.toNat / 32 + 1 then
            .ok ⟨first, (range + 1).toNat, bitmaps⟩
          else .panic

set_option maxRecDepth 4000 in
/-- C1 (code bug): the legal input `[1, 100]` (length 2, minimum 1, span
99 ≤ 255) makes the constructor abort instead of succeeding: the fold
advances the word base only once per member, so the 99-wide gap leaves
the word vector 2 long while the selected shape demands
`99 / 32 + 1 = 4` words and the slice-to-array `unwrap` panics.  On the
gap-free input of the crate's own test (the 99 even numbers 2..198) the
constructor does produce the correct base, bit count and words. -/
theorem frag_rangeset_gap_panic :
    fragTryFrom [1, 100] = .panic ∧
    fragTryFrom ((List.range 99).map (fun i => 2 * i + 2)) =
      .ok ⟨2, 197, [1431655765, 1431655765, 1431655765, 1431655765,
        1431655765, 1431655765, 21]⟩ := by
  constructor
  · decide
  · decide

/-- C2 (code bug): the constructor does not return a typed result on
every input.  The one-element vector holding the `unknown` sentinel
drives the max-minus-min `Sub` operator into its aborting
`expect` path in the SequenceNumber instantiation, and `[1, 68]` (span
67) makes the fragment instantiation panic in the shape-selection
`unwrap` (2 words produced, 3 expected). -/
theorem rangeset_constructor_panics :
    seqTryFrom [SequenceNumber.unknown] = .panic ∧
    fragTryFrom [1, 68] = .panic := by
  constructor
  · decide
  · decide

set_option maxRecDepth 8000 in
/-- C3 (code bug in the success clause): the three error classes fire as
claimed — `InvalidLength` for an empty or 257-element vector (checked
first), then `InvalidRange` for a span above 255, then `InvalidValue`
for a base below 1 — but a legal-length, legal-span, legal-base input
such as `[2, 90]` panics rather than succeeding. -/
theorem frag_rangeset_error_classes :
    fragTryFrom [] = .err (.invalidLength 0) ∧
    fragTryFrom (List.replicate 257 1) = .err (.invalidLength 257) ∧
    fragTryFrom [1, 300] = .err .invalidRange ∧
    fragTryFrom [0, 5] = .err .invalidValue ∧
    fragTryFrom [2, 90] = .panic := by
  refine ⟨by decide, by decide, by decide, by decide, by decide⟩
